import Mathlib

/-!
# Verification of the keydance kernel module (src/keydance.c, src/i8042.h)

Shallow embedding of the keydance reaction game: the shared game state, the
timer tick (keydance_timerfn), the deferred IRQ-thread key handler
(keydance_threadfn), the start-write operation (write_keydance_start), the
round-interval function (step_time), and the bounded LED command routine
(i8042_led_blink).

Machine integers are modelled as Nat: the C counters (int) start at 0, only
grow by 1 per event, and are bounded by the stop limits on every path the
theorems touch, so no overflow wrap is reachable; the 8-bit lock_state is
modelled with explicit masking (rand &&& 0x07; complement as &&& (255 ^^^ bit)).
Calls to the LED driver are recorded as the list of command bytes passed to
i8042_led_blink, and re-arming the timer is recorded as the level value passed
to step_time, so that statements about the stop sequence and the re-arm
interval can be made without modelling jiffies.
-/

set_option maxHeartbeats 1000000

namespace Keydance

/-- The shared game state of src/keydance.c: lock_state (the LED/live pattern
bits), game_running, and the statistics extras, misses, hits, level
(file-scope statics, lines 42-56). -/
structure GameState where
  lock_state : Nat
  game_running : Bool
  extras : Nat
  misses : Nat
  hits : Nat
  level : Nat
deriving DecidableEq, Repr

/-- increase game level every 10 hits (keydance.c line 58) -/
def HITS_PER_LEVEL : Nat := 10

/-- stop game when misses >= 10 (keydance.c line 59) -/
def MISSES_TO_STOP : Nat := 10

/-- stop game when level = 10 (keydance.c line 60) -/
def LEVEL_TO_STOP : Nat := 10

/-- State at module load: all statics zero-initialised, game_running = false
(keydance.c lines 42-56). -/
def initState : GameState :=
  { lock_state := 0, game_running := false, extras := 0, misses := 0,
    hits := 0, level := 0 }

/-- Delay before changing to the next LED pattern (keydance.c lines 63-66):
HZ*(20-2*level)/10.  HZ is the kernel configuration constant (at least 24 on
every Linux configuration) and is passed as a parameter; at every call site in
the module level < LEVEL_TO_STOP, where the Nat subtraction is exact. -/
def step_time (hz : Nat) (level : Nat) : Nat :=
  hz * (20 - 2 * level) / 10

/-- Result of one timer tick or one start-write: the new state, the list of
command bytes passed to i8042_led_blink (in order), and, when mod_timer was
called, the level value passed to step_time for the new expiry. -/
structure TickResult where
  st : GameState
  leds : List Nat
  rearm : Option Nat
deriving DecidableEq, Repr

/-- The stop sequence of keydance_timerfn (keydance.c lines 106-110):
game_running = false; i8042_led_blink(0); unlock.  Note that lock_state is
not cleared here. -/
def stopResult (s : GameState) : TickResult :=
  { st := { s with game_running := false }, leds := [0], rearm := none }

/-- The continue tail of keydance_timerfn (keydance.c lines 99-105):
extras = 0; i8042_led_blink(lock_state); mod_timer(jiffies + step_time(level)). -/
def contResult (s : GameState) : TickResult :=
  { st := { s with extras := 0 }, leds := [s.lock_state], rearm := some s.level }

/-- The timer callback keydance_timerfn (keydance.c lines 75-111), with the
random byte written by get_random_bytes passed in as rand.  Under the lock:
if the game is not running, take the stop sequence; otherwise save old_state,
draw lock_state = rand &&& 0x07, and score the elapsed round: a miss when
old_state or extras is nonzero (stopping at MISSES_TO_STOP), a hit otherwise
(level recomputed, stopping at LEVEL_TO_STOP), then reset extras, push the new
pattern to the LEDs and re-arm the timer. -/
def keydance_timerfn (rand : Nat) (s : GameState) : TickResult :=
  if !s.game_running then
    stopResult s
  else
    let old_state := s.lock_state
    let s1 : GameState := { s with lock_state := rand &&& 0x07 }
    if old_state ≠ 0 ∨ s1.extras ≠ 0 then
      let s2 : GameState := { s1 with misses := s1.misses + 1 }
      if MISSES_TO_STOP ≤ s2.misses then stopResult s2 else contResult s2
    else
      let s2 : GameState := { s1 with hits := s1.hits + 1 }
      let s3 : GameState := { s2 with level := s2.hits / HITS_PER_LEVEL }
      if LEVEL_TO_STOP ≤ s3.level then stopResult s3 else contResult s3

/-- 4, 2, 3 are the scancodes for key 1, key 2, key 3 (keydance.c line 49). -/
def dancekey_scancode_table : List Nat := [4, 2, 3]

/-- The scan loop of keydance_threadfn (keydance.c lines 203-205): the value
of i after `for (i=0; i<3; i++) if (scancode == dancekey_scancode_table[i])
break;` — the first matching index, or 3 when no entry matches. -/
def findKeyIdx (sc : Nat) : Nat :=
  if sc = dancekey_scancode_table.getD 0 0 then 0
  else if sc = dancekey_scancode_table.getD 1 0 then 1
  else if sc = dancekey_scancode_table.getD 2 0 then 2
  else 3

/-- The IRQ thread keydance_threadfn (keydance.c lines 193-216), with the byte
returned by i8042_read_data passed in as sc.  Returns the new state and the
LED commands issued.  Under the lock: nothing when the game is not running;
otherwise look the scancode up in the table; on a match with the bit set,
clear the bit (8-bit `lock_state &= ~(1<<i)`) and push the pattern to the
LEDs; on a match with the bit clear, count an extra press; an unmatched
scancode (i = 3) falls through the `if (i<3)` and changes nothing. -/
def keydance_threadfn (sc : Nat) (s : GameState) : GameState × List Nat :=
  if !s.game_running then
    (s, [])
  else
    let i := findKeyIdx sc
    if i < 3 then
      if s.lock_state &&& (1 <<< i) ≠ 0 then
        let s2 : GameState := { s with lock_state := s.lock_state &&& (255 ^^^ (1 <<< i)) }
        (s2, [s2.lock_state])
      else
        ({ s with extras := s.extras + 1 }, [])
    else
      (s, [])

/-- Result of write_keydance_start: new state, LED commands, timer re-arm
level, and the ssize_t return value. -/
structure StartResult where
  st : GameState
  leds : List Nat
  rearm : Option Nat
  ret : Nat
deriving DecidableEq, Repr

/-- The /proc/keydance-start write handler write_keydance_start (keydance.c
lines 118-133), with the write size passed in as count.  When no game is
running and the write is non-empty: lock_state = 0; i8042_led_blink(lock_state);
zero the statistics; game_running = true; mod_timer(jiffies + step_time(level))
with level = 0.  Always returns count. -/
def write_keydance_start (count : Nat) (s : GameState) : StartResult :=
  if s.game_running = false ∧ count ≠ 0 then
    let s1 : GameState := { s with lock_state := 0 }
    let s2 : GameState :=
      { s1 with extras := 0, misses := 0, hits := 0, level := 0, game_running := true }
    { st := s2, leds := [s1.lock_state], rearm := some s2.level, ret := count }
  else
    { st := s, leds := [], rearm := none, ret := count }

/-- States reachable from module load through the three state-mutating
entry points: timer ticks (with any random byte), IRQ-thread key handling
(with any scancode byte), and start writes (with any count). -/
inductive Reachable : GameState → Prop where
| init : Reachable initState
| tick (rand : Nat) {s : GameState} : Reachable s → Reachable (keydance_timerfn rand s).st
| key (sc : Nat) {s : GameState} : Reachable s → Reachable (keydance_threadfn sc s).fst
| start (count : Nat) {s : GameState} : Reachable s → Reachable (write_keydance_start count s).st

/-- Input-buffer-full bit of the i8042 status register (linux/i8042.h). -/
def I8042_STR_IBF : Nat := 0x02

/-- One busy-wait loop `while (i8042_read_status() & I8042_STR_IBF) DELAY;` of
i8042_led_blink (i8042.h lines 43, 53-54, 58-59).  The device is modelled as
the sequence of status bytes it returns, indexed by the number of status reads
performed so far (pos).  Each iteration reads one status byte; when it shows
busy, the DELAY macro runs: one millisecond of delay is accumulated and, once
delay exceeds 10, the whole routine returns delay (Sum.inl).  When the status
shows ready the loop exits with the read position and accumulated delay
(Sum.inr). -/
def blinkLoop (statuses : Nat → Nat) (pos delay : Nat) : Sum Nat (Nat × Nat) :=
  if statuses pos &&& I8042_STR_IBF ≠ 0 then
    if h : 10 < delay + 1 then Sum.inl (delay + 1)
    else blinkLoop statuses (pos + 1) (delay + 1)
  else
    Sum.inr (pos + 1, delay)
termination_by 11 - delay
decreasing_by simp_wf; omega

/-- The LED command routine i8042_led_blink (i8042.h lines 49-65): wait for
the controller, write the 0xed set-LEDs command, DELAY, wait again, DELAY,
write the state byte, DELAY, and return the accumulated delay.  Every DELAY
returns early once the accumulated delay exceeds 10.  The port writes are
device effects and do not influence the returned delay; the status sequence
is the model of the device. -/
def i8042_led_blink (statuses : Nat → Nat) (_state : Nat) : Nat :=
  match blinkLoop statuses 0 0 with
  | Sum.inl d => d
  | Sum.inr (pos1, d1) =>
    if 10 < d1 + 1 then d1 + 1
    else
      match blinkLoop statuses pos1 (d1 + 1) with
      | Sum.inl d => d
      | Sum.inr (_, d2) =>
        if 10 < d2 + 1 then d2 + 1
        else d2 + 1 + 1

/-- The five shared fields of the game state (plus the pattern byte), as
targets of read and write accesses in the lock-discipline model. -/
inductive SField where
| lockState | running | extras | misses | hits | level
deriving DecidableEq, Repr

/-- One event of an execution trace of a keydance entry point: acquiring or
releasing keydance_lock, or reading or writing one shared field. -/
inductive AccessEv where
| lock | unlock | rd (f : SField) | wr (f : SField)
deriving DecidableEq, Repr

/-- Checks that every field access in the trace happens while the lock is
held, scanning left to right with the current lock depth. -/
def lockedAccesses (depth : Nat) : List AccessEv → Bool
| [] => true
| AccessEv.lock :: es => lockedAccesses (depth + 1) es
| AccessEv.unlock :: es => lockedAccesses (depth - 1) es
| AccessEv.rd _ :: es => decide (0 < depth) && lockedAccesses depth es
| AccessEv.wr _ :: es => decide (0 < depth) && lockedAccesses depth es

/-- Shared-field access trace of keydance_timerfn (keydance.c lines 75-111):
spin_lock; read game_running; then, on the running path, save and redraw
lock_state, read extras only when old_state == 0 (C short-circuit), update the
statistics of the taken branch, and on the continue path clear extras and read
lock_state and level for the LED command and the re-arm; every exit path
unlocks. -/
def keydance_timerfn_trace (s : GameState) : List AccessEv :=
  [AccessEv.lock, AccessEv.rd SField.running] ++
  (if !s.game_running then
    [AccessEv.wr SField.running, AccessEv.unlock]
  else
    [AccessEv.rd SField.lockState, AccessEv.wr SField.lockState,
     AccessEv.rd SField.lockState, AccessEv.wr SField.lockState] ++
    (if s.lock_state ≠ 0 then [] else [AccessEv.rd SField.extras]) ++
    (if s.lock_state ≠ 0 ∨ s.extras ≠ 0 then
      [AccessEv.rd SField.misses, AccessEv.wr SField.misses, AccessEv.rd SField.misses] ++
      (if MISSES_TO_STOP ≤ s.misses + 1 then
        [AccessEv.wr SField.running, AccessEv.unlock]
      else
        [AccessEv.wr SField.extras, AccessEv.rd SField.lockState,
         AccessEv.rd SField.level, AccessEv.unlock])
    else
      [AccessEv.rd SField.hits, AccessEv.wr SField.hits, AccessEv.rd SField.hits,
       AccessEv.wr SField.level, AccessEv.rd SField.level] ++
      (if LEVEL_TO_STOP ≤ (s.hits + 1) / HITS_PER_LEVEL then
        [AccessEv.wr SField.running, AccessEv.unlock]
      else
        [AccessEv.wr SField.extras, AccessEv.rd SField.lockState,
         AccessEv.rd SField.level, AccessEv.unlock])))

/-- Shared-field access trace of keydance_threadfn (keydance.c lines 193-216):
spin_lock_irq; read game_running; on the running path, for a matched scancode
read lock_state and either clear the bit (read, write, then read again for the
LED command) or bump extras; spin_unlock_irq. -/
def keydance_threadfn_trace (sc : Nat) (s : GameState) : List AccessEv :=
  [AccessEv.lock, AccessEv.rd SField.running] ++
  (if !s.game_running then []
   else if findKeyIdx sc < 3 then
     [AccessEv.rd SField.lockState] ++
     (if s.lock_state &&& (1 <<< findKeyIdx sc) ≠ 0 then
        [AccessEv.rd SField.lockState, AccessEv.wr SField.lockState,
         AccessEv.rd SField.lockState]
      else
        [AccessEv.rd SField.extras, AccessEv.wr SField.extras])
   else []) ++
  [AccessEv.unlock]

/-- Shared-field access trace of write_keydance_start (keydance.c lines
118-133): read game_running for the guard, then, when starting, write
lock_state, read it back for the LED command, zero the four statistics, set
game_running and read level for the re-arm — with no lock or unlock event
anywhere: the function never touches keydance_lock. -/
def write_keydance_start_trace (count : Nat) (s : GameState) : List AccessEv :=
  [AccessEv.rd SField.running] ++
  (if s.game_running = false ∧ count ≠ 0 then
    [AccessEv.wr SField.lockState, AccessEv.rd SField.lockState,
     AccessEv.wr SField.extras, AccessEv.wr SField.misses, AccessEv.wr SField.hits,
     AccessEv.wr SField.level, AccessEv.wr SField.running, AccessEv.rd SField.level]
  else [])

/-- Shared-field access trace of keydance_result_proc_show (keydance.c lines
143-158): read game_running for the banner, then read level (twice: once
printed, once as the step_time argument), hits and misses — again with no
lock or unlock event anywhere. -/
def keydance_result_proc_show_trace (_s : GameState) : List AccessEv :=
  [AccessEv.rd SField.running, AccessEv.rd SField.level, AccessEv.rd SField.level,
   AccessEv.rd SField.hits, AccessEv.rd SField.misses]

/-! ## Branch characterizations of the timer tick -/

/-- A tick that finds the game stopped takes the stop sequence. -/
lemma tick_not_running (rand : Nat) (s : GameState) (h : s.game_running = false) :
    keydance_timerfn rand s = stopResult s := by
  simp [keydance_timerfn, h]

/-- The stop sequence does not change a state that is already stopped. -/
lemma tick_stopped_eq (rand : Nat) (s : GameState) (h : s.game_running = false) :
    (keydance_timerfn rand s).st = s := by
  obtain ⟨ls, gr, ex, mi, hi, lv⟩ := s
  simp only [] at h
  subst h
  simp [keydance_timerfn, stopResult]

/-- Miss round that does not reach the miss limit: misses is bumped, the drawn
pattern is installed, extras is cleared, and the game continues. -/
lemma tick_miss_cont (rand : Nat) (s : GameState) (hrun : s.game_running = true)
    (hc : s.lock_state ≠ 0 ∨ s.extras ≠ 0) (h9 : s.misses + 1 < MISSES_TO_STOP) :
    keydance_timerfn rand s =
      contResult { s with lock_state := rand &&& 0x07, misses := s.misses + 1 } := by
  obtain ⟨ls, gr, ex, mi, hi, lv⟩ := s
  simp only [] at hrun hc h9
  subst hrun
  simp only [keydance_timerfn, MISSES_TO_STOP] at *
  split_ifs <;> first
  | rfl
  | omega
  | tauto

/-- Miss round that reaches the miss limit: misses is bumped, the drawn
pattern is installed, and the stop sequence runs (without clearing extras). -/
lemma tick_miss_stop (rand : Nat) (s : GameState) (hrun : s.game_running = true)
    (hc : s.lock_state ≠ 0 ∨ s.extras ≠ 0) (h9 : MISSES_TO_STOP ≤ s.misses + 1) :
    keydance_timerfn rand s =
      stopResult { s with lock_state := rand &&& 0x07, misses := s.misses + 1 } := by
  obtain ⟨ls, gr, ex, mi, hi, lv⟩ := s
  simp only [] at hrun hc h9
  subst hrun
  simp only [keydance_timerfn, MISSES_TO_STOP] at *
  split_ifs <;> first
  | rfl
  | omega
  | tauto

/-- Hit round that stays below the level limit: hits is bumped, level is
recomputed, the drawn pattern is installed, and the game continues. -/
lemma tick_hit_cont (rand : Nat) (s : GameState) (hrun : s.game_running = true)
    (hl : s.lock_state = 0) (he : s.extras = 0)
    (h10 : (s.hits + 1) / HITS_PER_LEVEL < LEVEL_TO_STOP) :
    keydance_timerfn rand s =
      contResult
        { s with
          lock_state := rand &&& 0x07,
          hits := s.hits + 1,
          level := (s.hits + 1) / HITS_PER_LEVEL } := by
  obtain ⟨ls, gr, ex, mi, hi, lv⟩ := s
  simp only [] at hrun hl he h10
  subst hrun; subst hl; subst he
  simp only [keydance_timerfn, HITS_PER_LEVEL, LEVEL_TO_STOP] at *
  split_ifs <;> first
  | rfl
  | omega
  | tauto

/-- Hit round that reaches the level limit: hits is bumped, level is
recomputed, the drawn pattern is installed, and the stop sequence runs. -/
lemma tick_hit_stop (rand : Nat) (s : GameState) (hrun : s.game_running = true)
    (hl : s.lock_state = 0) (he : s.extras = 0)
    (h10 : LEVEL_TO_STOP ≤ (s.hits + 1) / HITS_PER_LEVEL) :
    keydance_timerfn rand s =
      stopResult
        { s with
          lock_state := rand &&& 0x07,
          hits := s.hits + 1,
          level := (s.hits + 1) / HITS_PER_LEVEL } := by
  obtain ⟨ls, gr, ex, mi, hi, lv⟩ := s
  simp only [] at hrun hl he h10
  subst hrun; subst hl; subst he
  simp only [keydance_timerfn, HITS_PER_LEVEL, LEVEL_TO_STOP] at *
  split_ifs <;> first
  | rfl
  | omega
  | tauto

/-! ## Bound on the LED busy-wait loop -/

/-- Any run of the busy-wait loop started with at most 10 accumulated delay
units either returns early with exactly 11 units, or exits the loop with the
accumulated delay still at most 10 and at least the starting value. -/
lemma blinkLoop_bound (statuses : Nat → Nat) (pos delay : Nat) (h : delay ≤ 10) :
    (∀ d, blinkLoop statuses pos delay = Sum.inl d → d = 11) ∧
    (∀ p d, blinkLoop statuses pos delay = Sum.inr (p, d) → delay ≤ d ∧ d ≤ 10) := by
  rw [blinkLoop]
  by_cases hb : statuses pos &&& I8042_STR_IBF ≠ 0
  · rw [if_pos hb]
    by_cases h10 : 10 < delay + 1
    · rw [dif_pos h10]
      constructor
      · intro d hd
        cases hd
        omega
      · intro p d hd
        simp at hd
    · rw [dif_neg h10]
      have ih := blinkLoop_bound statuses (pos + 1) (delay + 1) (by omega)
      refine ⟨ih.1, ?_⟩
      intro p d hd
      have := ih.2 p d hd
      omega
  · rw [if_neg hb]
    constructor
    · intro d hd
      simp at hd
    · intro p d hd
      cases hd
      omega
termination_by 11 - delay
decreasing_by simp_wf; omega

/-- Claim C9: the indicator-set operation i8042_led_blink terminates for every
possible sequence of device status readings — including a device that never
reports ready — and the elapsed time it returns never exceeds 11 millisecond
units.  (Termination is established by the definition itself being total in
the status sequence; the theorem gives the ceiling.) -/
theorem i8042_led_blink_bounded (statuses : Nat → Nat) (state : Nat) :
    i8042_led_blink statuses state ≤ 11 := by
  unfold i8042_led_blink
  rcases hb1 : blinkLoop statuses 0 0 with d | ⟨pos1, d1⟩
  · have := (blinkLoop_bound statuses 0 0 (by omega)).1 d hb1
    dsimp only
    omega
  · have h1 := (blinkLoop_bound statuses 0 0 (by omega)).2 pos1 d1 hb1
    dsimp only
    by_cases h10 : 10 < d1 + 1
    · rw [if_pos h10]
      omega
    · rw [if_neg h10]
      rcases hb2 : blinkLoop statuses pos1 (d1 + 1) with d | ⟨pos2, d2⟩
      · have := (blinkLoop_bound statuses pos1 (d1 + 1) (by omega)).1 d hb2
        dsimp only
        omega
      · have h2 := (blinkLoop_bound statuses pos1 (d1 + 1) (by omega)).2 pos2 d2 hb2
        dsimp only
        by_cases h11 : 10 < d2 + 1
        · rw [if_pos h11]
          omega
        · rw [if_neg h11]
          omega

/-! ## Session control and key handler basics -/

/-- Claim C6: the begin operation is idempotent against an in-progress
session: a write to /proc/keydance-start while game_running is true changes
nothing — no state update, no LED command, no timer arming — and still
returns the full count. -/
theorem start_idempotent_when_running (count : Nat) (s : GameState)
    (h : s.game_running = true) :
    write_keydance_start count s =
      { st := s, leds := [], rearm := none, ret := count } := by
  simp [write_keydance_start, h]

/-- Witness for C6 at a concrete running state and a non-empty write of five
bytes. -/
theorem start_idempotent_when_running_witness :
    (⟨3, true, 1, 2, 4, 0⟩ : GameState).game_running = true ∧
    write_keydance_start 5 ⟨3, true, 1, 2, 4, 0⟩ =
      { st := ⟨3, true, 1, 2, 4, 0⟩, leds := [], rearm := none, ret := 5 } :=
  ⟨by decide, start_idempotent_when_running 5 ⟨3, true, 1, 2, 4, 0⟩ (by decide)⟩

/-- Claim C7: the deferred key handler run while game_running is false is a
no-op: it rechecks running under the lock and leaves every field unchanged
and issues no LED command. -/
theorem threadfn_noop_when_stopped (sc : Nat) (s : GameState)
    (h : s.game_running = false) :
    keydance_threadfn sc s = (s, []) := by
  simp [keydance_threadfn, h]

/-- Witness for C7: a key-2 event against a freshly stopped state with a
stale nonzero pattern is discarded whole. -/
theorem threadfn_noop_when_stopped_witness :
    (⟨5, false, 0, 10, 3, 0⟩ : GameState).game_running = false ∧
    keydance_threadfn 2 ⟨5, false, 0, 10, 3, 0⟩ = (⟨5, false, 0, 10, 3, 0⟩, []) :=
  ⟨by decide, threadfn_noop_when_stopped 2 ⟨5, false, 0, 10, 3, 0⟩ (by decide)⟩

/-- Division by ten is strictly monotone across a gap of ten. -/
lemma div_ten_lt_div_ten {a b : Nat} (h : a + 10 ≤ b) : a / 10 < b / 10 := by
  have h1 : a / 10 + 1 = (a + 10) / 10 := (Nat.add_div_right a (by norm_num)).symm
  have h2 : (a + 10) / 10 ≤ b / 10 := Nat.div_le_div_right h
  omega

/-- Claim C8: the round interval step_time is strictly decreasing over the
levels at which the scheduler re-arms itself (0 through LEVEL_TO_STOP - 1) and
strictly positive at every such level.  HZ is any value of the kernel
configuration constant with 5 ≤ HZ (every Linux configuration has HZ ≥ 24). -/
theorem step_time_decreasing_pos (hz l1 l2 : Nat) (hhz : 5 ≤ hz)
    (h12 : l1 < l2) (h2 : l2 < LEVEL_TO_STOP) :
    step_time hz l2 < step_time hz l1 ∧
    0 < step_time hz l2 ∧ 0 < step_time hz l1 := by
  have h2' : l2 < 10 := by simpa [LEVEL_TO_STOP] using h2
  have ha : 2 ≤ 20 - 2 * l2 := by omega
  have hab : 20 - 2 * l2 + 2 ≤ 20 - 2 * l1 := by omega
  have hnum : hz * (20 - 2 * l2) + 10 ≤ hz * (20 - 2 * l1) := by
    have hx : hz * (20 - 2 * l2) + hz * 2 = hz * ((20 - 2 * l2) + 2) := by ring
    have hy : hz * ((20 - 2 * l2) + 2) ≤ hz * (20 - 2 * l1) :=
      Nat.mul_le_mul_left hz hab
    omega
  have hA : step_time hz l2 < step_time hz l1 := by
    unfold step_time
    exact div_ten_lt_div_ten hnum
  have hB : 0 < step_time hz l2 := by
    unfold step_time
    refine Nat.div_pos ?_ (by norm_num)
    calc (10 : Nat) = 5 * 2 := by norm_num
    _ ≤ hz * (20 - 2 * l2) := Nat.mul_le_mul hhz ha
  exact ⟨hA, hB, lt_trans hB hA⟩

/-- Witness for C8 at HZ = 100 and the level pair 3 < 7. -/
theorem step_time_decreasing_pos_witness :
    (5 ≤ 100 ∧ 3 < 7 ∧ 7 < LEVEL_TO_STOP) ∧
    (step_time 100 7 < step_time 100 3 ∧
     0 < step_time 100 7 ∧ 0 < step_time 100 3) :=
  ⟨by decide, step_time_decreasing_pos 100 3 7 (by decide) (by decide) (by decide)⟩

/-! ## Claim C2: unrecognized key identifiers -/

/-- Running state with pattern 0b011 used to exercise the key handler on an
unmapped scancode. -/
def c2State : GameState := ⟨3, true, 0, 0, 0, 0⟩

/-- Counterexample to claim C2: scancode 9 is not in the key map, the session
is running, yet the deferred handler does not increment extras — it leaves the
state entirely unchanged, unlike a mapped key whose bit is already clear. -/
theorem unmapped_key_not_extra :
    c2State.game_running = true ∧
    9 ∉ dancekey_scancode_table ∧
    ¬ (keydance_threadfn 9 c2State).fst.extras = c2State.extras + 1 ∧
    (keydance_threadfn 9 c2State).fst = c2State := by decide

/-- Claim C2 as amended: during a running session the deferred handler ignores
key identifiers that are not in the fixed map — no field changes and no LED
command — while extras is incremented (by exactly one, with all other fields
unchanged) only when a mapped key is pressed whose indicator bit is already
clear. -/
theorem unmapped_ignored_extra_on_clear_bit (sc : Nat) (s : GameState)
    (h : s.game_running = true) :
    (sc ∉ dancekey_scancode_table → keydance_threadfn sc s = (s, [])) ∧
    (∀ i : Nat, i < 3 → sc = dancekey_scancode_table.getD i 0 →
      s.lock_state &&& (1 <<< i) = 0 →
      keydance_threadfn sc s = ({ s with extras := s.extras + 1 }, [])) := by
  constructor
  · intro hmem
    have h4 : ¬(sc = 4 ∨ sc = 2 ∨ sc = 3) := by
      simpa [dancekey_scancode_table] using hmem
    push_neg at h4
    simp [keydance_threadfn, h, findKeyIdx, dancekey_scancode_table,
          h4.1, h4.2.1, h4.2.2]
  · intro i hi heq hbit
    interval_cases i <;>
      (subst heq;
       simp_all [keydance_threadfn, findKeyIdx, dancekey_scancode_table,
                 Nat.and_one_is_mod])

/-- Witness for the amended C2: scancode 9 is discarded during a running
session, and scancode 2 (key 2) with indicator bit 1 clear counts as an
extra press. -/
theorem unmapped_ignored_extra_on_clear_bit_witness :
    c2State.game_running = true ∧
    9 ∉ dancekey_scancode_table ∧
    keydance_threadfn 9 c2State = (c2State, []) ∧
    ((⟨5, true, 0, 0, 0, 0⟩ : GameState).lock_state &&& (1 <<< 1) = 0 ∧
     keydance_threadfn 2 ⟨5, true, 0, 0, 0, 0⟩ = (⟨5, true, 1, 0, 0, 0⟩, [])) :=
  ⟨by decide, by decide,
   (unmapped_ignored_extra_on_clear_bit 9 c2State (by decide)).1 (by decide),
   by decide,
   (unmapped_ignored_extra_on_clear_bit 2 ⟨5, true, 0, 0, 0, 0⟩ (by decide)).2
     1 (by decide) (by decide) (by decide)⟩

/-! ## Claim C3: stopped sessions and the live pattern -/

/-- The state right after a successful start write on the load state. -/
def startSt : GameState := (write_keydance_start 1 initState).st

/-- One timer tick with random byte 1 (drawn pattern 0b001). -/
def tick1St (s : GameState) : GameState := (keydance_timerfn 1 s).st

/-- Eleven ticks with random byte 1 after a start: the first scores a hit
(the initial pattern is 0), the next ten score misses (pattern 1 never
cleared), and the tenth miss stops the game — with lock_state still 1. -/
def c3StopState : GameState := tick1St^[11] startSt

/-- Iterating the rand = 1 tick preserves reachability. -/
lemma reachable_tick1_iterate (n : Nat) (s : GameState) (h : Reachable s) :
    Reachable (tick1St^[n] s) := by
  induction n with
  | zero => simpa using h
  | succ k ih =>
    rw [Function.iterate_succ_apply']
    exact Reachable.tick 1 ih

/-- Counterexample to claim C3: a reachable quiescent state (reached by a
start write and eleven timer ticks, the last of which runs the stop sequence
at the miss limit) in which running is false while livePattern (lock_state)
is nonzero: the stop sequence commands the LEDs to 0 but does not clear
lock_state. -/
theorem stopped_reachable_nonzero_pattern :
    Reachable c3StopState ∧
    c3StopState.game_running = false ∧
    c3StopState.lock_state ≠ 0 :=
  ⟨reachable_tick1_iterate 11 startSt (Reachable.start 1 Reachable.init),
   by decide, by decide⟩

/-- Claim C3 as amended: the stop sequence taken by a tick of a running
session commands the indicator driver to the all-off pattern and cancels the
re-arm, but leaves livePattern equal to the pattern just drawn (rand &&& 0x07),
which need not be 0 — so running == false does not imply livePattern == 0;
livePattern is reset to 0 only by the begin operation. -/
theorem stop_sequence_leds_off_pattern_kept (rand : Nat) (s : GameState)
    (hrun : s.game_running = true)
    (hstop : (keydance_timerfn rand s).st.game_running = false) :
    (keydance_timerfn rand s).leds = [0] ∧
    (keydance_timerfn rand s).rearm = none ∧
    (keydance_timerfn rand s).st.lock_state = rand &&& 0x07 := by
  by_cases hc : s.lock_state ≠ 0 ∨ s.extras ≠ 0
  · by_cases h9 : MISSES_TO_STOP ≤ s.misses + 1
    · rw [tick_miss_stop rand s hrun hc h9]
      simp [stopResult]
    · rw [tick_miss_cont rand s hrun hc (by omega)] at hstop ⊢
      simp [contResult] at hstop
      rw [hrun] at hstop
      cases hstop
  · push_neg at hc
    by_cases h10 : LEVEL_TO_STOP ≤ (s.hits + 1) / HITS_PER_LEVEL
    · rw [tick_hit_stop rand s hrun hc.1 hc.2 h10]
      simp [stopResult]
    · rw [tick_hit_cont rand s hrun hc.1 hc.2 (by omega)] at hstop ⊢
      simp [contResult] at hstop
      rw [hrun] at hstop
      cases hstop

/-- Witness for the amended C3: a tick at nine misses with the pattern still
lit stops the game, commands the LEDs off, and keeps the drawn pattern
1 &&& 0x07 = 1 in lock_state. -/
theorem stop_sequence_leds_off_pattern_kept_witness :
    ((⟨1, true, 0, 9, 1, 0⟩ : GameState).game_running = true ∧
     (keydance_timerfn 1 ⟨1, true, 0, 9, 1, 0⟩).st.game_running = false) ∧
    ((keydance_timerfn 1 ⟨1, true, 0, 9, 1, 0⟩).leds = [0] ∧
     (keydance_timerfn 1 ⟨1, true, 0, 9, 1, 0⟩).rearm = none ∧
     (keydance_timerfn 1 ⟨1, true, 0, 9, 1, 0⟩).st.lock_state = 1 &&& 0x07) :=
  ⟨⟨by decide, by decide⟩,
   stop_sequence_leds_off_pattern_kept 1 ⟨1, true, 0, 9, 1, 0⟩ (by decide) (by decide)⟩

/-! ## Claim C1: outcome of one scheduler tick -/

/-- The level invariant level = hits / HITS_PER_LEVEL holds in every reachable
state: begin sets both to 0, a hit tick recomputes level from the new hits, and
no other operation touches either field. -/
lemma reachable_level_inv (s : GameState) (h : Reachable s) :
    s.level = s.hits / HITS_PER_LEVEL := by
  induction h with
  | init => simp [initState]
  | tick rand hs ih =>
    rename_i s0
    by_cases hg : s0.game_running = true
    · by_cases hc : s0.lock_state ≠ 0 ∨ s0.extras ≠ 0
      · by_cases h9 : MISSES_TO_STOP ≤ s0.misses + 1
        · rw [tick_miss_stop rand s0 hg hc h9]
          simpa [stopResult] using ih
        · rw [tick_miss_cont rand s0 hg hc (by omega)]
          simpa [contResult] using ih
      · push_neg at hc
        by_cases h10 : LEVEL_TO_STOP ≤ (s0.hits + 1) / HITS_PER_LEVEL
        · rw [tick_hit_stop rand s0 hg hc.1 hc.2 h10]
          simp [stopResult]
        · rw [tick_hit_cont rand s0 hg hc.1 hc.2 (by omega)]
          simp [contResult]
    · have hg2 : s0.game_running = false := by
        cases hb : s0.game_running
        · rfl
        · exact absurd hb hg
      rw [tick_stopped_eq rand s0 hg2]
      exact ih
  | key sc hs ih =>
    rename_i s0
    have hpres : (keydance_threadfn sc s0).fst.hits = s0.hits ∧
        (keydance_threadfn sc s0).fst.level = s0.level := by
      simp only [keydance_threadfn]
      split_ifs <;> simp
    rw [hpres.1, hpres.2]
    exact ih
  | start count hs ih =>
    rename_i s0
    by_cases hc : s0.game_running = false ∧ count ≠ 0
    · have hz : (write_keydance_start count s0).st.hits = 0 ∧
          (write_keydance_start count s0).st.level = 0 := by
        simp [write_keydance_start, hc]
      rw [hz.1, hz.2]
      simp
    · have heq : (write_keydance_start count s0).st = s0 := by
        simp [write_keydance_start, hc]
      rw [heq]
      exact ih

/-- Claim C1: on a tick of a running session (with the level invariant
level = hits / HITS_PER_LEVEL holding beforehand, as every reachable running
state satisfies), the outcome is decided from the captured previous state:
if the previous pattern is nonzero or extra presses are pending, misses grows
by exactly one (hits untouched) and reaching MISSES_TO_STOP stops the session
with the LEDs commanded all-off and no re-arm; otherwise hits grows by exactly
one (misses untouched), level is recomputed as hits / HITS_PER_LEVEL, and
reaching LEVEL_TO_STOP stops the session the same way; and after the tick
level = hits / HITS_PER_LEVEL holds again. -/
theorem tick_round_outcome (rand : Nat) (s : GameState)
    (hrun : s.game_running = true)
    (hlvl : s.level = s.hits / HITS_PER_LEVEL) :
    ((s.lock_state ≠ 0 ∨ 0 < s.extras) →
      (keydance_timerfn rand s).st.misses = s.misses + 1 ∧
      (keydance_timerfn rand s).st.hits = s.hits ∧
      (MISSES_TO_STOP ≤ s.misses + 1 →
        (keydance_timerfn rand s).st.game_running = false ∧
        (keydance_timerfn rand s).leds = [0] ∧
        (keydance_timerfn rand s).rearm = none)) ∧
    ((s.lock_state = 0 ∧ s.extras = 0) →
      (keydance_timerfn rand s).st.hits = s.hits + 1 ∧
      (keydance_timerfn rand s).st.misses = s.misses ∧
      (keydance_timerfn rand s).st.level = (s.hits + 1) / HITS_PER_LEVEL ∧
      (LEVEL_TO_STOP ≤ (s.hits + 1) / HITS_PER_LEVEL →
        (keydance_timerfn rand s).st.game_running = false ∧
        (keydance_timerfn rand s).leds = [0] ∧
        (keydance_timerfn rand s).rearm = none)) ∧
    (keydance_timerfn rand s).st.level = (keydance_timerfn rand s).st.hits / HITS_PER_LEVEL := by
  refine ⟨?_, ?_, ?_⟩
  · intro hc
    have hc' : s.lock_state ≠ 0 ∨ s.extras ≠ 0 := by omega
    by_cases h9 : MISSES_TO_STOP ≤ s.misses + 1
    · rw [tick_miss_stop rand s hrun hc' h9]
      simp [stopResult]
    · rw [tick_miss_cont rand s hrun hc' (by omega)]
      simp [contResult]
      omega
  · intro hc
    by_cases h10 : LEVEL_TO_STOP ≤ (s.hits + 1) / HITS_PER_LEVEL
    · rw [tick_hit_stop rand s hrun hc.1 hc.2 h10]
      simp [stopResult]
    · rw [tick_hit_cont rand s hrun hc.1 hc.2 (by omega)]
      simp [contResult]
      omega
  · by_cases hc : s.lock_state ≠ 0 ∨ s.extras ≠ 0
    · by_cases h9 : MISSES_TO_STOP ≤ s.misses + 1
      · rw [tick_miss_stop rand s hrun hc h9]
        simpa [stopResult] using hlvl
      · rw [tick_miss_cont rand s hrun hc (by omega)]
        simpa [contResult] using hlvl
    · push_neg at hc
      by_cases h10 : LEVEL_TO_STOP ≤ (s.hits + 1) / HITS_PER_LEVEL
      · rw [tick_hit_stop rand s hrun hc.1 hc.2 h10]
        simp [stopResult]
      · rw [tick_hit_cont rand s hrun hc.1 hc.2 (by omega)]
        simp [contResult]

/-- Witness for C1: a tick with the pattern still lit at nine misses scores
the tenth miss and stops the session with the LEDs commanded all-off, and the
level invariant holds after the tick. -/
theorem tick_round_outcome_witness :
    ((⟨1, true, 0, 9, 1, 0⟩ : GameState).game_running = true ∧
     (⟨1, true, 0, 9, 1, 0⟩ : GameState).level =
       (⟨1, true, 0, 9, 1, 0⟩ : GameState).hits / HITS_PER_LEVEL ∧
     ((⟨1, true, 0, 9, 1, 0⟩ : GameState).lock_state ≠ 0 ∨
       0 < (⟨1, true, 0, 9, 1, 0⟩ : GameState).extras) ∧
     MISSES_TO_STOP ≤ (⟨1, true, 0, 9, 1, 0⟩ : GameState).misses + 1) ∧
    ((keydance_timerfn 5 ⟨1, true, 0, 9, 1, 0⟩).st.misses = 10 ∧
     (keydance_timerfn 5 ⟨1, true, 0, 9, 1, 0⟩).st.hits = 1) ∧
    ((keydance_timerfn 5 ⟨1, true, 0, 9, 1, 0⟩).st.game_running = false ∧
     (keydance_timerfn 5 ⟨1, true, 0, 9, 1, 0⟩).leds = [0] ∧
     (keydance_timerfn 5 ⟨1, true, 0, 9, 1, 0⟩).rearm = none) ∧
    (keydance_timerfn 5 ⟨1, true, 0, 9, 1, 0⟩).st.level =
      (keydance_timerfn 5 ⟨1, true, 0, 9, 1, 0⟩).st.hits / HITS_PER_LEVEL :=
  ⟨⟨by decide, by decide, by decide, by decide⟩,
   ⟨((tick_round_outcome 5 ⟨1, true, 0, 9, 1, 0⟩ (by decide) (by decide)).1
       (by decide)).1,
    ((tick_round_outcome 5 ⟨1, true, 0, 9, 1, 0⟩ (by decide) (by decide)).1
       (by decide)).2.1⟩,
   ((tick_round_outcome 5 ⟨1, true, 0, 9, 1, 0⟩ (by decide) (by decide)).1
       (by decide)).2.2 (by decide),
   (tick_round_outcome 5 ⟨1, true, 0, 9, 1, 0⟩ (by decide) (by decide)).2.2⟩

/-! ## Claim C4: tick sequences without key events -/

/-- Counterexample to claim C4: right after begin the session is running and
no key events are handled, yet the first tick does not increase misses — the
captured previous pattern is 0 and extras is 0, so the tick scores a hit.
(The same happens after any tick that happens to draw the all-zero pattern.) -/
theorem tick_without_key_events_not_a_miss :
    startSt.game_running = true ∧
    (keydance_timerfn 5 startSt).st.misses = startSt.misses ∧
    ¬ (keydance_timerfn 5 startSt).st.misses = startSt.misses + 1 := by decide

/-- Folding a list of random bytes through consecutive timer ticks. -/
def run_ticks (rands : List Nat) (s : GameState) : GameState :=
  rands.foldl (fun t r => (keydance_timerfn r t).st) s

/-- Unfolding lemma for run_ticks on a cons cell. -/
lemma run_ticks_cons (r : Nat) (rest : List Nat) (s : GameState) :
    run_ticks (r :: rest) s = run_ticks rest (keydance_timerfn r s).st := rfl

/-- Claim C4 as amended: for consecutive ticks of a running session with no
key events, provided the state entering the sequence has its pattern still lit
(or pending extra presses) and every drawn pattern is nonzero, each tick
increases misses by exactly 1 — until misses reaches MISSES_TO_STOP, at which
point running becomes false and any further tick leaves the state (pattern
included) unchanged.  (Without the nonzero-pattern proviso the claim fails:
a tick whose captured previous pattern is 0 scores a hit, as the
counterexample shows for the first tick after begin.) -/
theorem miss_ticks_until_stop (rands : List Nat) (s : GameState)
    (hrun : s.game_running = true)
    (hm : s.misses < MISSES_TO_STOP)
    (hprev : s.lock_state ≠ 0 ∨ s.extras ≠ 0)
    (hr : ∀ r ∈ rands, r &&& 0x07 ≠ 0)
    (hlen : s.misses + rands.length ≤ MISSES_TO_STOP) :
    (run_ticks rands s).misses = s.misses + rands.length ∧
    ((run_ticks rands s).game_running = true ↔
      s.misses + rands.length < MISSES_TO_STOP) ∧
    (s.misses + rands.length = MISSES_TO_STOP →
      ∀ r2 : Nat, (keydance_timerfn r2 (run_ticks rands s)).st = run_ticks rands s) := by
  induction rands generalizing s with
  | nil =>
    refine ⟨by simp [run_ticks], ?_, ?_⟩
    · simp [run_ticks, hrun]
      omega
    · intro hEq r2
      exfalso
      simp at hEq
      omega
  | cons r rest ih =>
    have hmem : r &&& 0x07 ≠ 0 := hr r (by simp)
    by_cases h9 : MISSES_TO_STOP ≤ s.misses + 1
    · have hrest : rest = [] := by
        have hl : s.misses + (r :: rest).length ≤ MISSES_TO_STOP := hlen
        simp only [List.length_cons] at hl
        have hz : rest.length = 0 := by omega
        exact List.length_eq_zero.mp hz
      subst hrest
      rw [run_ticks_cons, tick_miss_stop r s hrun hprev h9]
      refine ⟨by simp [run_ticks, stopResult], ?_, ?_⟩
      · simp [run_ticks, stopResult]
        omega
      · intro _ r2
        apply tick_stopped_eq
        simp [run_ticks, stopResult]
    · rw [run_ticks_cons, tick_miss_cont r s hrun hprev (by omega)]
      have h1run : ((contResult
          { s with lock_state := r &&& 0x07, misses := s.misses + 1 }).st).game_running
          = true := by
        simp [contResult, hrun]
      have hlen1 : s.misses + (rest.length + 1) ≤ MISSES_TO_STOP := by
        simpa using hlen
      obtain ⟨hA, hB, hC⟩ := ih _ h1run
        (by simp [contResult]; omega)
        (by simp [contResult]; exact hmem)
        (fun x hx => hr x (List.mem_cons_of_mem r hx))
        (by simp only [contResult]; omega)
      refine ⟨?_, ?_, ?_⟩
      · rw [hA]
        simp only [contResult, List.length_cons]
        omega
      · rw [hB]
        simp only [contResult, List.length_cons]
        omega
      · intro hEq r2
        apply hC
        simp only [List.length_cons] at hEq
        simp only [contResult]
        omega

/-- Witness for the amended C4: from a running state with the pattern lit and
no misses yet, three ticks that draw the nonzero patterns 1, 3, 5 score three
misses and leave the session running. -/
theorem miss_ticks_until_stop_witness :
    ((⟨1, true, 0, 0, 0, 0⟩ : GameState).game_running = true ∧
     (⟨1, true, 0, 0, 0, 0⟩ : GameState).misses < MISSES_TO_STOP ∧
     ((⟨1, true, 0, 0, 0, 0⟩ : GameState).lock_state ≠ 0 ∨
       (⟨1, true, 0, 0, 0, 0⟩ : GameState).extras ≠ 0) ∧
     (⟨1, true, 0, 0, 0, 0⟩ : GameState).misses + [1, 3, 5].length ≤ MISSES_TO_STOP) ∧
    (run_ticks [1, 3, 5] ⟨1, true, 0, 0, 0, 0⟩).misses = 3 ∧
    (run_ticks [1, 3, 5] ⟨1, true, 0, 0, 0, 0⟩).game_running = true :=
  ⟨⟨by decide, by decide, by decide, by decide⟩,
   (miss_ticks_until_stop [1, 3, 5] ⟨1, true, 0, 0, 0, 0⟩ (by decide) (by decide)
      (by decide) (by decide) (by decide)).1,
   ((miss_ticks_until_stop [1, 3, 5] ⟨1, true, 0, 0, 0, 0⟩ (by decide) (by decide)
      (by decide) (by decide) (by decide)).2.1).mpr (by decide)⟩

/-! ## Claim C5: lock discipline of the shared fields -/

/-- Claim C5 (found to fail in the code): the timer tick and the IRQ-thread
handler perform every shared-field access with keydance_lock held, but the
start-write handler and the result-show handler access game_running,
lock_state and the statistics with no lock acquisition at all, contradicting
the comment at keydance.c lines 44-45 which names the proc write process as a
concurrency source the lock protects against. -/
theorem lock_discipline_broken_by_proc_handlers :
    (∀ s : GameState, lockedAccesses 0 (keydance_timerfn_trace s) = true) ∧
    (∀ sc : Nat, ∀ s : GameState, lockedAccesses 0 (keydance_threadfn_trace sc s) = true) ∧
    lockedAccesses 0 (write_keydance_start_trace 1 initState) = false ∧
    lockedAccesses 0 (keydance_result_proc_show_trace initState) = false := by
  refine ⟨?_, ?_, by decide, by decide⟩
  · intro s
    unfold keydance_timerfn_trace
    split_ifs <;> decide
  · intro sc s
    unfold keydance_threadfn_trace
    split_ifs <;> decide

/-! ## Claim C10: running sessions stay below the stop limits -/

/-- Claim C10: in every reachable state, a running session has misses below
MISSES_TO_STOP and level below LEVEL_TO_STOP — the tick stops the session in
the same step in which a counter reaches its limit, begin resets both to 0
before setting running, and the key handler touches neither. -/
theorem reachable_running_below_limits (s : GameState) (h : Reachable s) :
    s.game_running = true → s.misses < MISSES_TO_STOP ∧ s.level < LEVEL_TO_STOP := by
  induction h with
  | init =>
    intro hrun
    simp [initState] at hrun
  | tick rand hs ih =>
    rename_i s0
    intro hrun
    by_cases hg : s0.game_running = true
    · have ihb := ih hg
      by_cases hc : s0.lock_state ≠ 0 ∨ s0.extras ≠ 0
      · by_cases h9 : MISSES_TO_STOP ≤ s0.misses + 1
        · rw [tick_miss_stop rand s0 hg hc h9] at hrun
          simp [stopResult] at hrun
        · rw [tick_miss_cont rand s0 hg hc (by omega)]
          simp only [contResult]
          constructor
          · omega
          · exact ihb.2
      · push_neg at hc
        by_cases h10 : LEVEL_TO_STOP ≤ (s0.hits + 1) / HITS_PER_LEVEL
        · rw [tick_hit_stop rand s0 hg hc.1 hc.2 h10] at hrun
          simp [stopResult] at hrun
        · rw [tick_hit_cont rand s0 hg hc.1 hc.2 (by omega)]
          simp only [contResult]
          constructor
          · exact ihb.1
          · omega
    · have hg' : s0.game_running = false := by
        cases hb : s0.game_running
        · rfl
        · exact absurd hb hg
      rw [tick_stopped_eq rand s0 hg'] at hrun
      exact absurd hrun hg
  | key sc hs ih =>
    rename_i s0
    intro hrun
    have hpres : (keydance_threadfn sc s0).fst.game_running = s0.game_running ∧
        (keydance_threadfn sc s0).fst.misses = s0.misses ∧
        (keydance_threadfn sc s0).fst.level = s0.level := by
      simp only [keydance_threadfn]
      split_ifs <;> simp
    rw [hpres.2.1, hpres.2.2]
    exact ih (hpres.1 ▸ hrun)
  | start count hs ih =>
    rename_i s0
    intro hrun
    by_cases hc : s0.game_running = false ∧ count ≠ 0
    · have : (write_keydance_start count s0).st.misses = 0 ∧
          (write_keydance_start count s0).st.level = 0 := by
        simp [write_keydance_start, hc]
      rw [this.1, this.2]
      exact ⟨by simp [MISSES_TO_STOP], by simp [LEVEL_TO_STOP]⟩
    · have heq : (write_keydance_start count s0).st = s0 := by
        simp [write_keydance_start, hc]
      rw [heq] at hrun ⊢
      exact ih hrun

/-- Witness for C10 at the reachable state right after a start write. -/
theorem reachable_running_below_limits_witness :
    Reachable startSt ∧ startSt.game_running = true ∧
    (startSt.misses < MISSES_TO_STOP ∧ startSt.level < LEVEL_TO_STOP) :=
  ⟨Reachable.start 1 Reachable.init, by decide,
   reachable_running_below_limits startSt (Reachable.start 1 Reachable.init) (by decide)⟩

end Keydance
